import Mathlib

/-!
Shallow embedding of the e-commerce analytics pipeline
(`data_loader.py` and `business_metrics.py`) and proofs about it.

Tables are lists of records; pandas left-merges become `leftJoin`;
`drop_duplicates(keep='first')` becomes `dropDuplicatesFirst`; groupby
aggregations become explicit maps over first-appearance-ordered distinct
keys.  Prices and scores are rationals; timestamps carry their calendar
year and month as data together with absolute seconds since the epoch,
so that `.dt.year` / `.dt.month` are projections and timedelta `.dt.days`
is floor division of the second difference by 86400.
-/

/-- A pandas timestamp: calendar year and month, plus absolute seconds
since the epoch (used for timedelta arithmetic). -/
structure Timestamp where
  year : Int
  month : Int
  sec : Int
deriving DecidableEq

/-- One row of `order_items_dataset.csv` (the columns `process_data` selects). -/
structure OrderItem where
  order_id : String
  order_item_id : Nat
  product_id : String
  price : ℚ
  freight_value : ℚ
deriving DecidableEq

/-- One row of `orders_dataset.csv` (the columns `process_data` selects). -/
structure Order where
  order_id : String
  customer_id : String
  order_status : String
  order_purchase_timestamp : Option Timestamp
  order_delivered_customer_date : Option Timestamp
deriving DecidableEq

/-- One row of `products_dataset.csv` (the columns `process_data` selects);
the category may be missing in the CSV. -/
structure Product where
  product_id : String
  product_category_name : Option String
deriving DecidableEq

/-- One row of `customers_dataset.csv` (the columns `process_data` selects). -/
structure Customer where
  customer_id : String
  customer_state : String
  customer_city : String
deriving DecidableEq

/-- One row of `order_reviews_dataset.csv` (the columns `process_data` selects). -/
structure Review where
  order_id : String
  review_score : ℚ
deriving DecidableEq

/-- The raw tables used by `EcommerceDataLoader.process_data`
(`payments` is loaded but never merged, so it is omitted). -/
structure RawTables where
  order_items : List OrderItem
  orders : List Order
  products : List Product
  customers : List Customer
  reviews : List Review
deriving DecidableEq

/-- Pandas `left.merge(right, how='left')`: each left row is paired with
every matching right row, in right-table order, or with `none` when no
right row matches. -/
def leftJoin {α β : Type} (l : List α) (r : List β) (m : α → β → Bool) :
    List (α × Option β) :=
  l.flatMap fun a =>
    let ms := r.filter (m a)
    if ms.isEmpty then [(a, none)] else ms.map fun b => (a, some b)

/-- Worker for `dropDuplicatesFirst`: drop every row whose key was already
seen, walking the list front to back. -/
def dropDupsAux {α β : Type} [DecidableEq β] (key : α → β) (seen : List β) :
    List α → List α
  | [] => []
  | a :: rest =>
      if key a ∈ seen then dropDupsAux key seen rest
      else a :: dropDupsAux key (key a :: seen) rest

/-- Pandas `drop_duplicates(subset=key, keep='first')`: keep the first row
with each key, drop every later row with the same key. -/
def dropDuplicatesFirst {α β : Type} [DecidableEq β] (key : α → β)
    (l : List α) : List α :=
  dropDupsAux key [] l

/-- Worker for `dedupKeys`: drop every value already seen. -/
def dedupKeysAux {β : Type} [DecidableEq β] (seen : List β) :
    List β → List β
  | [] => []
  | k :: ks =>
      if k ∈ seen then dedupKeysAux seen ks
      else k :: dedupKeysAux (k :: seen) ks

/-- First-appearance-ordered distinct values of a list (`Series.unique`). -/
def dedupKeys {β : Type} [DecidableEq β] (l : List β) : List β :=
  dedupKeysAux [] l

/-- Sum of `f` over a list (`Series.sum`). -/
def sumBy {α : Type} (f : α → ℚ) (l : List α) : ℚ := (l.map f).sum

/-- Mean of a list of rationals (`Series.mean` over the non-null values).
Pandas returns NaN on the empty list; here the empty case is the junk
value `0 / 0 = 0`. -/
def listMean (l : List ℚ) : ℚ := l.sum / l.length

/-- Python `round(x, 2)` (ties modelled with mathematical rounding). -/
def round2 (x : ℚ) : ℚ := ((round (x * 100) : ℤ) : ℚ) / 100

/-- Python `round(x, 1)` (ties modelled with mathematical rounding). -/
def round1 (x : ℚ) : ℚ := ((round (x * 10) : ℤ) : ℚ) / 10

/-- Pandas `Series.nunique` on the `order_id` column: number of distinct order ids. -/
def nuniqueOrders {α : Type} (key : α → String) (l : List α) : Nat :=
  (dedupKeys (l.map key)).length

/- ------------------------------------------------------------------
   data_loader.py : EcommerceDataLoader.process_data
   ------------------------------------------------------------------ -/

/-- Merge order items with the order header (`how='left'`, on `order_id`). -/
def stage1 (raw : RawTables) : List (OrderItem × Option Order) :=
  leftJoin raw.order_items raw.orders fun i o => i.order_id = o.order_id

/-- Attach the product category (`how='left'`, on `product_id`). -/
def stage2 (raw : RawTables) : List ((OrderItem × Option Order) × Option Product) :=
  leftJoin (stage1 raw) raw.products fun p pr => p.1.product_id = pr.product_id

/-- Attach customer state and city (`how='left'`, on `customer_id`); a row
whose order was unmatched has a missing `customer_id` and matches no customer. -/
def stage3 (raw : RawTables) :
    List (((OrderItem × Option Order) × Option Product) × Option Customer) :=
  leftJoin (stage2 raw) raw.customers fun p c =>
    match p.1.2 with
    | some o => o.customer_id = c.customer_id
    | none => false

/-- The reviews table deduplicated on `order_id`, keeping the first row. -/
def reviewsDeduped (raw : RawTables) : List Review :=
  dropDuplicatesFirst Review.order_id raw.reviews

/-- Attach the review score (`how='left'`, on `order_id`, against the
deduplicated reviews). -/
def stage4 (raw : RawTables) :
    List ((((OrderItem × Option Order) × Option Product) × Option Customer) × Option Review) :=
  leftJoin (stage3 raw) (reviewsDeduped raw) fun p rv => p.1.1.1.order_id = rv.order_id

/-- One row of the processed table: the merged columns plus the derived
`purchase_year`, `purchase_month` and `delivery_days` columns. -/
structure Row where
  order_id : String
  order_item_id : Nat
  product_id : String
  price : ℚ
  freight_value : ℚ
  customer_id : Option String
  order_status : Option String
  order_purchase_timestamp : Option Timestamp
  order_delivered_customer_date : Option Timestamp
  product_category_name : Option String
  customer_state : Option String
  customer_city : Option String
  review_score : Option ℚ
  purchase_year : Option Int
  purchase_month : Option Int
  delivery_days : Option Int
deriving DecidableEq

/-- Flatten one fully merged tuple into a `Row`, deriving the time columns:
`purchase_year` / `purchase_month` read the purchase timestamp, and
`delivery_days` is the second difference floor-divided by 86400
(pandas timedelta `.dt.days`), missing when either timestamp is missing. -/
def mkRow
    (s : (((OrderItem × Option Order) × Option Product) × Option Customer) × Option Review) :
    Row :=
  let i := s.1.1.1.1
  let o := s.1.1.1.2
  let pr := s.1.1.2
  let c := s.1.2
  let rv := s.2
  let ts := o.bind Order.order_purchase_timestamp
  let dd := o.bind Order.order_delivered_customer_date
  { order_id := i.order_id
    order_item_id := i.order_item_id
    product_id := i.product_id
    price := i.price
    freight_value := i.freight_value
    customer_id := o.map Order.customer_id
    order_status := o.map Order.order_status
    order_purchase_timestamp := ts
    order_delivered_customer_date := dd
    product_category_name := pr.bind Product.product_category_name
    customer_state := c.map Customer.customer_state
    customer_city := c.map Customer.customer_city
    review_score := rv.map Review.review_score
    purchase_year := ts.map Timestamp.year
    purchase_month := ts.map Timestamp.month
    delivery_days :=
      match ts, dd with
      | some p, some d => some (Int.fdiv (d.sec - p.sec) 86400)
      | _, _ => none }

/-- The body of `EcommerceDataLoader.process_data`: the four successive left joins
followed by the derived columns. -/
def processData (raw : RawTables) : List Row :=
  (stage4 raw).map mkRow

/- ------------------------------------------------------------------
   data_loader.py : EcommerceDataLoader.create_sales_dataset
   ------------------------------------------------------------------ -/

/-- Loader state: the raw tables plus the cached processed table
(`self.processed`, `None` until `process_data` has run). -/
structure Loader where
  raw : RawTables
  processed : Option (List Row)
deriving DecidableEq

/-- The three sequential filters of `create_sales_dataset`: status first,
then year, then month; a `none` filter is skipped. -/
def applySalesFilters (df : List Row) (yearFilter monthFilter : Option Int)
    (statusFilter : Option String) : List Row :=
  let d1 := match statusFilter with
    | some sv => df.filter fun r => r.order_status = some sv
    | none => df
  let d2 := match yearFilter with
    | some yv => d1.filter fun r => r.purchase_year = some yv
    | none => d1
  match monthFilter with
  | some mv => d2.filter fun r => r.purchase_month = some mv
  | none => d2

/-- The method `EcommerceDataLoader.create_sales_dataset`, with the loader state
threaded explicitly: when `self.processed` is `None` it first runs
`process_data` (which stores the table on the loader), then filters a
copy of the processed table. -/
def createSalesDataset (l : Loader) (yearFilter monthFilter : Option Int)
    (statusFilter : Option String) : Loader × List Row :=
  match l.processed with
  | none =>
      let df := processData l.raw
      ({ l with processed := some df },
       applySalesFilters df yearFilter monthFilter statusFilter)
  | some df => (l, applySalesFilters df yearFilter monthFilter statusFilter)

/-- Calling `create_sales_dataset` without a `status_filter` argument:
the Python parameter default is the string `'delivered'`. -/
def createSalesDatasetDefault (l : Loader) (yearFilter monthFilter : Option Int) :
    Loader × List Row :=
  createSalesDataset l yearFilter monthFilter (some "delivered")

/- ------------------------------------------------------------------
   business_metrics.py : calculate_revenue_metrics
   ------------------------------------------------------------------ -/

/-- The inner `pct_change(new, old)` of `calculate_revenue_metrics`:
`((new - old) / old * 100)` when `old` is truthy, `None` when `old` is zero. -/
def pctChange (new old : ℚ) : Option ℚ :=
  if old ≠ 0 then some ((new - old) / old * 100) else none

/-- Python `round(x, 2)` on an optional value: `round(None, 2)` raises a
`TypeError`. -/
def roundOpt (x : Option ℚ) : Except String ℚ :=
  match x with
  | some q => .ok (round2 q)
  | none => .error "TypeError: NoneType has no round method"

/-- The per-order price sums `sales.groupby('order_id')['price'].sum()`:
one sum per distinct `order_id`, in first-appearance order (group order
does not matter for the mean). -/
def perOrderPriceSums (sales : List Row) : List ℚ :=
  (dedupKeys (sales.map Row.order_id)).map fun k =>
    sumBy Row.price (sales.filter fun r => r.order_id = k)

/-- The expression `sales.groupby('order_id')['price'].sum().mean()`, the AOV expression
of `calculate_revenue_metrics`. -/
def aovOfSales (sales : List Row) : ℚ := listMean (perOrderPriceSums sales)

/-- The result dict of `calculate_revenue_metrics`. -/
structure RevenueMetrics where
  current_year : Int
  comparison_year : Int
  total_revenue_current : ℚ
  total_revenue_comparison : ℚ
  revenue_growth_pct : ℚ
  total_orders_current : Nat
  total_orders_comparison : Nat
  order_growth_pct : ℚ
  aov_current : ℚ
  aov_comparison : ℚ
  aov_growth_pct : ℚ
deriving DecidableEq

/-- The function `calculate_revenue_metrics`: top-level revenue KPIs comparing two years.
Building the dict evaluates `round(pct_change(...), 2)` for revenue, then
orders, then AOV; the first `round(None, 2)` raises, so the result is an
`Except`. -/
def calculateRevenueMetrics (current_sales comparison_sales : List Row)
    (current_year comparison_year : Int) : Except String RevenueMetrics :=
  let rev_cur := sumBy Row.price current_sales
  let rev_comp := sumBy Row.price comparison_sales
  let orders_cur := nuniqueOrders Row.order_id current_sales
  let orders_comp := nuniqueOrders Row.order_id comparison_sales
  let aov_cur := aovOfSales current_sales
  let aov_comp := aovOfSales comparison_sales
  match roundOpt (pctChange rev_cur rev_comp) with
  | .error e => .error e
  | .ok revenue_growth_pct =>
    match roundOpt (pctChange (orders_cur : ℚ) (orders_comp : ℚ)) with
    | .error e => .error e
    | .ok order_growth_pct =>
      match roundOpt (pctChange aov_cur aov_comp) with
      | .error e => .error e
      | .ok aov_growth_pct =>
        .ok { current_year := current_year
              comparison_year := comparison_year
              total_revenue_current := round2 rev_cur
              total_revenue_comparison := round2 rev_comp
              revenue_growth_pct := revenue_growth_pct
              total_orders_current := orders_cur
              total_orders_comparison := orders_comp
              order_growth_pct := order_growth_pct
              aov_current := round2 aov_cur
              aov_comparison := round2 aov_comp
              aov_growth_pct := aov_growth_pct }

/- ------------------------------------------------------------------
   business_metrics.py : calculate_monthly_revenue
   ------------------------------------------------------------------ -/

/-- One row of the `calculate_monthly_revenue` result. -/
structure MonthlyRevenueRow where
  purchase_month : Int
  revenue : ℚ
  mom_growth_pct : Option ℚ
deriving DecidableEq

/-- The distinct non-null `purchase_month` values, ascending
(`groupby` drops null keys and sorts; `sort_values` keeps them sorted). -/
def monthsPresent (sales : List Row) : List Int :=
  List.insertionSort (· ≤ ·) (dedupKeys (sales.filterMap Row.purchase_month))

/-- Revenue of one month: sum of `price` over that month's rows. -/
def monthRevenue (sales : List Row) (m : Int) : ℚ :=
  sumBy Row.price (sales.filter fun r => r.purchase_month = some m)

/-- Pandas `Series.pct_change() * 100` down a list of (month, revenue) pairs:
the first row gets `prev = none` hence a null growth value. -/
def attachMoM (prev : Option ℚ) : List (Int × ℚ) → List MonthlyRevenueRow
  | [] => []
  | (m, r) :: rest =>
      { purchase_month := m, revenue := r,
        mom_growth_pct := prev.map fun p => (r - p) / p * 100 } :: attachMoM (some r) rest

/-- The function `calculate_monthly_revenue`: monthly revenue totals with
month-over-month percentage change. -/
def calculateMonthlyRevenue (sales : List Row) : List MonthlyRevenueRow :=
  attachMoM none ((monthsPresent sales).map fun m => (m, monthRevenue sales m))

/- ------------------------------------------------------------------
   business_metrics.py : calculate_geographic_metrics
   ------------------------------------------------------------------ -/

/-- One row of the `calculate_geographic_metrics` result. -/
structure GeoRow where
  customer_state : String
  revenue : ℚ
  order_count : Nat
  aov : ℚ
deriving DecidableEq

/-- The distinct non-null states, in groupby key order (sorted). -/
def statesPresent (sales : List Row) : List String :=
  List.insertionSort (· ≤ ·) (dedupKeys (sales.filterMap Row.customer_state))

/-- The rows of one state's group. -/
def stateRows (sales : List Row) (s : String) : List Row :=
  sales.filter fun r => r.customer_state = some s

/-- The aggregate row of one state group: revenue, distinct-order count,
and `aov = revenue / order_count` (rounded to 2 decimals). -/
def geoRowFor (sales : List Row) (s : String) : GeoRow :=
  let rows := stateRows sales s
  let revenue := sumBy Row.price rows
  let order_count := nuniqueOrders Row.order_id rows
  { customer_state := s
    revenue := revenue
    order_count := order_count
    aov := round2 (revenue / (order_count : ℚ)) }

/-- The function `calculate_geographic_metrics`: revenue, distinct-order count and
`aov = revenue / order_count` per state, sorted by descending revenue. -/
def calculateGeographicMetrics (sales : List Row) : List GeoRow :=
  List.insertionSort (fun g1 g2 => g2.revenue ≤ g1.revenue)
    ((statesPresent sales).map (geoRowFor sales))

/- ------------------------------------------------------------------
   business_metrics.py : calculate_delivery_metrics / _bucket_delivery
   ------------------------------------------------------------------ -/

/-- The helper `_bucket_delivery`: categorise a delivery duration; a missing value
is `'unknown'`, then the `<= 3` / `<= 7` / else ladder. -/
def bucketDelivery (days : Option Int) : String :=
  match days with
  | none => "unknown"
  | some d => if d ≤ 3 then "1-3 days" else if d ≤ 7 then "4-7 days" else "8+ days"

/-- One row of the order-level frame
`sales[['order_id', 'delivery_days', 'review_score']]`. -/
structure OrderLevel where
  order_id : String
  delivery_days : Option Int
  review_score : Option ℚ
deriving DecidableEq

/-- One row of `delivery_bucket_summary`; `delivery_time` is `none` when the
categorical cast turned the label into NaN. -/
structure BucketRow where
  delivery_time : Option String
  avg_review_score : ℚ
  order_count : Nat
deriving DecidableEq

/-- The result dict of `calculate_delivery_metrics`. -/
structure DeliveryMetrics where
  avg_delivery_days : ℚ
  avg_review_score : ℚ
  delivery_bucket_summary : List BucketRow
deriving DecidableEq

/-- The order-level frame: project to the three columns and
`drop_duplicates('order_id')` (keep first). -/
def deliveryOrderLevel (sales : List Row) : List OrderLevel :=
  dropDuplicatesFirst OrderLevel.order_id
    (sales.map fun r =>
      { order_id := r.order_id, delivery_days := r.delivery_days,
        review_score := r.review_score })

/-- Applying `pd.Categorical(_, categories=['1-3 days', '4-7 days', '8+ days'])` on a
label: labels outside the category list (such as `'unknown'`) become NaN. -/
def bucketLabel (s : String) : Option String :=
  if s = "1-3 days" ∨ s = "4-7 days" ∨ s = "8+ days" then some s else none

/-- Sort rank of a categorical label; NaN sorts last. -/
def bucketRank (l : Option String) : Nat :=
  match l with
  | some "1-3 days" => 0
  | some "4-7 days" => 1
  | some "8+ days" => 2
  | _ => 3

/-- The distinct bucket strings of the order-level frame, in groupby key
order (sorted). -/
def deliveryBuckets (sales : List Row) : List String :=
  (dedupKeys ((deliveryOrderLevel sales).map fun o =>
    bucketDelivery o.delivery_days)) |> List.insertionSort (· ≤ ·)

/-- The aggregate row of one bucket group: mean review score (nulls
skipped), order count, and the label after the categorical cast. -/
def bucketRowFor (sales : List Row) (k : String) : BucketRow :=
  let grp := (deliveryOrderLevel sales).filter fun o =>
    bucketDelivery o.delivery_days = k
  { delivery_time := bucketLabel k
    avg_review_score := listMean (grp.filterMap OrderLevel.review_score)
    order_count := grp.length }

/-- The frame `delivery_bucket_summary`: group the order-level frame by bucket,
aggregate mean review score (nulls skipped) and order count, cast the label
through the three-category categorical, and sort by that categorical. -/
def bucketSummary (sales : List Row) : List BucketRow :=
  List.insertionSort
    (fun b1 b2 => bucketRank b1.delivery_time ≤ bucketRank b2.delivery_time)
    ((deliveryBuckets sales).map (bucketRowFor sales))

/-- The function `calculate_delivery_metrics`: average delivery days and review score
(nulls skipped by `.mean()`), plus the bucket summary. -/
def calculateDeliveryMetrics (sales : List Row) : DeliveryMetrics :=
  { avg_delivery_days :=
      round1 (listMean (((deliveryOrderLevel sales).filterMap
        OrderLevel.delivery_days).map fun d => (d : ℚ)))
    avg_review_score :=
      round2 (listMean ((deliveryOrderLevel sales).filterMap OrderLevel.review_score))
    delivery_bucket_summary := bucketSummary sales }

/- ------------------------------------------------------------------
   Helper lemmas
   ------------------------------------------------------------------ -/

lemma mem_dedupKeysAux {β : Type} [DecidableEq β] (x : β) :
    ∀ (l seen : List β), x ∈ dedupKeysAux seen l ↔ (x ∈ l ∧ x ∉ seen) := by
  intro l
  induction l with
  | nil => intro seen; simp [dedupKeysAux]
  | cons k ks ih =>
    intro seen
    by_cases hk : k ∈ seen
    · rw [dedupKeysAux, if_pos hk, ih seen]
      constructor
      · rintro ⟨h1, h2⟩
        exact ⟨List.mem_cons.mpr (Or.inr h1), h2⟩
      · rintro ⟨h1, h2⟩
        rcases List.mem_cons.mp h1 with rfl | h1
        · exact absurd hk h2
        · exact ⟨h1, h2⟩
    · rw [dedupKeysAux, if_neg hk]
      simp only [List.mem_cons, ih (k :: seen), not_or]
      constructor
      · rintro (rfl | ⟨h1, h2, h3⟩)
        · exact ⟨Or.inl rfl, hk⟩
        · exact ⟨Or.inr h1, h3⟩
      · rintro ⟨h1, h2⟩
        rcases h1 with rfl | h1
        · exact Or.inl rfl
        · by_cases hx : x = k
          · exact Or.inl hx
          · exact Or.inr ⟨h1, hx, h2⟩

lemma mem_dedupKeys {β : Type} [DecidableEq β] (l : List β) (x : β) :
    x ∈ dedupKeys l ↔ x ∈ l := by
  rw [dedupKeys, mem_dedupKeysAux]
  simp

lemma nodup_dedupKeysAux {β : Type} [DecidableEq β] :
    ∀ (l seen : List β), (dedupKeysAux seen l).Nodup := by
  intro l
  induction l with
  | nil => intro seen; simp [dedupKeysAux]
  | cons k ks ih =>
    intro seen
    by_cases hk : k ∈ seen
    · rw [dedupKeysAux, if_pos hk]
      exact ih seen
    · rw [dedupKeysAux, if_neg hk]
      refine List.nodup_cons.mpr ⟨?_, ih (k :: seen)⟩
      intro hmem
      have h := (mem_dedupKeysAux k ks (k :: seen)).mp hmem
      exact h.2 (List.mem_cons_self k seen)

lemma nodup_dedupKeys {β : Type} [DecidableEq β] (l : List β) :
    (dedupKeys l).Nodup :=
  nodup_dedupKeysAux l []

lemma mem_of_mem_dropDupsAux {α β : Type} [DecidableEq β] (key : α → β) (x : α) :
    ∀ (l : List α) (seen : List β), x ∈ dropDupsAux key seen l → x ∈ l := by
  intro l
  induction l with
  | nil => intro seen hx; simp [dropDupsAux] at hx
  | cons a rest ih =>
    intro seen hx
    by_cases hk : key a ∈ seen
    · rw [dropDupsAux, if_pos hk] at hx
      exact List.mem_cons.mpr (Or.inr (ih seen hx))
    · rw [dropDupsAux, if_neg hk] at hx
      rcases List.mem_cons.mp hx with rfl | hx
      · exact List.mem_cons_self _ _
      · exact List.mem_cons.mpr (Or.inr (ih _ hx))

lemma mem_of_mem_dropDuplicatesFirst {α β : Type} [DecidableEq β] (key : α → β)
    (l : List α) (x : α) (hx : x ∈ dropDuplicatesFirst key l) : x ∈ l :=
  mem_of_mem_dropDupsAux key x l [] hx

lemma key_not_seen_of_mem_dropDupsAux {α β : Type} [DecidableEq β]
    (key : α → β) (x : α) :
    ∀ (l : List α) (seen : List β), x ∈ dropDupsAux key seen l → key x ∉ seen := by
  intro l
  induction l with
  | nil => intro seen hx; simp [dropDupsAux] at hx
  | cons a rest ih =>
    intro seen hx
    by_cases hk : key a ∈ seen
    · rw [dropDupsAux, if_pos hk] at hx
      exact ih seen hx
    · rw [dropDupsAux, if_neg hk] at hx
      rcases List.mem_cons.mp hx with rfl | hx
      · exact hk
      · have h := ih (key a :: seen) hx
        intro hs
        exact h (List.mem_cons.mpr (Or.inr hs))

lemma nodup_keys_dropDupsAux {α β : Type} [DecidableEq β] (key : α → β) :
    ∀ (l : List α) (seen : List β), ((dropDupsAux key seen l).map key).Nodup := by
  intro l
  induction l with
  | nil => intro seen; simp [dropDupsAux]
  | cons a rest ih =>
    intro seen
    by_cases hk : key a ∈ seen
    · rw [dropDupsAux, if_pos hk]
      exact ih seen
    · rw [dropDupsAux, if_neg hk]
      simp only [List.map_cons, List.nodup_cons]
      refine ⟨?_, ih (key a :: seen)⟩
      intro hmem
      obtain ⟨x, hx, hkx⟩ := List.mem_map.mp hmem
      have h := key_not_seen_of_mem_dropDupsAux key x rest (key a :: seen) hx
      rw [hkx] at h
      exact h (List.mem_cons_self _ _)

lemma nodup_keys_dropDuplicatesFirst {α β : Type} [DecidableEq β] (key : α → β)
    (l : List α) : ((dropDuplicatesFirst key l).map key).Nodup :=
  nodup_keys_dropDupsAux key l []

/-- In a list whose keys are distinct, at most one row matches a fixed key. -/
lemma length_filter_key_le_one {α β : Type} [DecidableEq β] (key : α → β) (k : β) :
    ∀ l : List α, (l.map key).Nodup → (l.filter fun b => k = key b).length ≤ 1 := by
  intro l
  induction l with
  | nil => simp
  | cons b rest ih =>
    intro hnd
    simp only [List.map_cons, List.nodup_cons] at hnd
    by_cases h : k = key b
    · subst h
      have hempty : (rest.filter fun c => key b = key c) = [] := by
        rw [List.filter_eq_nil_iff]
        intro c hc hkc
        simp only [decide_eq_true_eq] at hkc
        exact hnd.1 (List.mem_map.mpr ⟨c, hc, hkc.symm⟩)
      simp [List.filter_cons, hempty]
    · simpa [List.filter_cons, h] using ih hnd.2

lemma leftJoin_cons {α β : Type} (a : α) (l : List α) (r : List β) (m : α → β → Bool) :
    leftJoin (a :: l) r m =
      (if (r.filter (m a)).isEmpty then [(a, none)]
       else (r.filter (m a)).map fun b => (a, some b)) ++ leftJoin l r m := by
  simp [leftJoin]

/-- When every left row matches at most one right row, a left join keeps
exactly one output row per left row. -/
lemma length_leftJoin_of_unique {α β : Type} (r : List β) (m : α → β → Bool)
    (h : ∀ a, (r.filter (m a)).length ≤ 1) :
    ∀ l : List α, (leftJoin l r m).length = l.length := by
  intro l
  induction l with
  | nil => simp [leftJoin]
  | cons a rest ih =>
    rw [leftJoin_cons, List.length_append, ih]
    by_cases he : (r.filter (m a)).isEmpty
    · rw [if_pos he]
      simp only [List.length_cons, List.length_nil]
      omega
    · have hne : r.filter (m a) ≠ [] := by
        intro hnil
        rw [hnil] at he
        simp at he
      have h1 : 1 ≤ (r.filter (m a)).length := List.length_pos.mpr hne
      have h2 := h a
      rw [if_neg he]
      simp only [List.length_map, List.length_cons]
      omega

/-- Every left row produces at least one row of the join. -/
lemma exists_mem_leftJoin {α β : Type} {l : List α} {r : List β} {m : α → β → Bool}
    {a : α} (ha : a ∈ l) : ∃ ob, (a, ob) ∈ leftJoin l r m := by
  by_cases he : (r.filter (m a)).isEmpty
  · exact ⟨none, List.mem_flatMap.mpr ⟨a, ha, by simp [he]⟩⟩
  · have hne : r.filter (m a) ≠ [] := by
      intro hnil
      rw [hnil] at he
      simp at he
    obtain ⟨b, hb⟩ := List.exists_mem_of_ne_nil _ hne
    exact ⟨some b, List.mem_flatMap.mpr
      ⟨a, ha, by simp only [he, if_false]; exact List.mem_map.mpr ⟨b, hb, rfl⟩⟩⟩

/-- A left row with no matching right row is joined to `none`. -/
lemma mem_leftJoin_none {α β : Type} {l : List α} {r : List β} {m : α → β → Bool}
    {a : α} (ha : a ∈ l) (hno : r.filter (m a) = []) :
    (a, (none : Option β)) ∈ leftJoin l r m :=
  List.mem_flatMap.mpr ⟨a, ha, by simp [hno]⟩

/-- The left component of any join output row is a left input row. -/
lemma fst_mem_of_mem_leftJoin {α β : Type} {l : List α} {r : List β} {m : α → β → Bool}
    {x : α × Option β} (hx : x ∈ leftJoin l r m) : x.1 ∈ l := by
  obtain ⟨a, ha, hfa⟩ := List.mem_flatMap.mp hx
  by_cases he : (r.filter (m a)).isEmpty
  · simp [he] at hfa
    rw [hfa]
    exact ha
  · simp [he] at hfa
    obtain ⟨b, hbm, hb⟩ := hfa
    rw [← hb]
    exact ha

lemma sumBy_filter_split {α : Type} (p : α → Bool) (f : α → ℚ) (l : List α) :
    sumBy f (l.filter p) + sumBy f (l.filter fun a => !(p a)) = sumBy f l := by
  induction l with
  | nil => simp [sumBy]
  | cons a rest ih =>
    by_cases h : p a = true <;>
      simp only [sumBy] at ih ⊢ <;>
      simp [List.filter_cons, h] <;>
      linarith

/-- Summing group sums over a distinct covering key list gives the total sum. -/
lemma sum_groups {α β : Type} [DecidableEq β] (key : α → β) (f : α → ℚ) :
    ∀ (keys : List β) (l : List α), keys.Nodup → (∀ a ∈ l, key a ∈ keys) →
      ((keys.map fun k => sumBy f (l.filter fun a => key a = k)).sum = sumBy f l)
  | [], l, _, hcov => by
    cases l with
    | nil => simp [sumBy]
    | cons a rest => exact absurd (hcov a (by simp)) (by simp)
  | k :: keys, l, hnd, hcov => by
    obtain ⟨hk, hnd2⟩ := List.nodup_cons.mp hnd
    have hterm : ∀ k2 ∈ keys,
        (l.filter fun a => key a = k2) =
          ((l.filter fun a => !(decide (key a = k))).filter fun a => key a = k2) := by
      intro k2 hk2
      rw [List.filter_filter]
      refine (List.filter_congr ?_).symm
      intro a _
      have hne2 : ¬(k2 = k) := by
        rintro rfl
        exact hk hk2
      by_cases h : key a = k2
      · simp [h, hne2]
      · simp [h]
    have hmapeq :
        (keys.map fun k2 => sumBy f (l.filter fun a => key a = k2)) =
          (keys.map fun k2 =>
            sumBy f ((l.filter fun a => !(decide (key a = k))).filter
              fun a => key a = k2)) :=
      List.map_congr_left fun k2 hk2 => by rw [hterm k2 hk2]
    have hcov2 : ∀ a ∈ l.filter fun a => !(decide (key a = k)), key a ∈ keys := by
      intro a ha
      obtain ⟨hal, hne⟩ := List.mem_filter.mp ha
      rcases List.mem_cons.mp (hcov a hal) with h | h
      · simp [h] at hne
      · exact h
    have hrec := sum_groups key f keys (l.filter fun a => !(decide (key a = k)))
      hnd2 hcov2
    calc ((k :: keys).map fun k2 => sumBy f (l.filter fun a => key a = k2)).sum
        = sumBy f (l.filter fun a => key a = k) +
            (keys.map fun k2 => sumBy f (l.filter fun a => key a = k2)).sum := by
          simp
      _ = sumBy f (l.filter fun a => key a = k) +
            sumBy f (l.filter fun a => !(decide (key a = k))) := by
          rw [hmapeq, hrec]
      _ = sumBy f l := sumBy_filter_split _ f l

/-- Spec-side predicate for `create_sales_dataset`: a row satisfies every
given (non-`none`) equality filter; a `none` filter imposes no constraint. -/
def matchesAllFilters (yearFilter monthFilter : Option Int)
    (statusFilter : Option String) (r : Row) : Bool :=
  (match statusFilter with
   | some sv => decide (r.order_status = some sv)
   | none => true) &&
  (match yearFilter with
   | some yv => decide (r.purchase_year = some yv)
   | none => true) &&
  (match monthFilter with
   | some mv => decide (r.purchase_month = some mv)
   | none => true)

lemma applySalesFilters_eq_filter (df : List Row) (y m : Option Int)
    (s : Option String) :
    applySalesFilters df y m s = df.filter (matchesAllFilters y m s) := by
  have htrue : ∀ y2 m2 s2, (∀ r : Row, matchesAllFilters y2 m2 s2 r = true) →
      df = df.filter (matchesAllFilters y2 m2 s2) := by
    intro y2 m2 s2 hall
    rw [show matchesAllFilters y2 m2 s2 = (fun _ : Row => true) from
      funext fun r => hall r, List.filter_true]
  cases s <;> cases y <;> cases m <;>
    · simp only [applySalesFilters, List.filter_filter]
      first
        | exact List.filter_congr fun r _ => by
            simp [matchesAllFilters, Bool.and_comm, Bool.and_left_comm,
              Bool.and_assoc]
        | exact htrue _ _ _ fun r => by simp [matchesAllFilters]

/- ------------------------------------------------------------------
   Sample data for concrete witnesses
   ------------------------------------------------------------------ -/

/-- Empty raw tables (used in concrete witnesses). -/
def sampleRawEmpty : RawTables :=
  { order_items := [], orders := [], products := [], customers := [], reviews := [] }

/-- A sample processed row (used in concrete witnesses). -/
def sampleRow : Row :=
  { order_id := "o1", order_item_id := 1, product_id := "p1", price := 50,
    freight_value := 5, customer_id := some "c1",
    order_status := some "delivered",
    order_purchase_timestamp := some ⟨2023, 5, 1700000000⟩,
    order_delivered_customer_date := some ⟨2023, 5, 1700200000⟩,
    product_category_name := some "toys", customer_state := some "CA",
    customer_city := some "LA", review_score := some 5,
    purchase_year := some 2023, purchase_month := some 5,
    delivery_days := some 2 }

/- ------------------------------------------------------------------
   Claim theorems
   ------------------------------------------------------------------ -/

/-- C2: for every combination of `year_filter`, `month_filter` and
`status_filter`, `create_sales_dataset` returns exactly the rows of the
processed table that satisfy every given non-`none` equality filter, in
their original relative order (a `List.filter`), and a `none` filter
imposes no constraint on its column. -/
theorem createSalesDataset_eq_filter (raw : RawTables) (rows : List Row)
    (y m : Option Int) (s : Option String) :
    (createSalesDataset ⟨raw, some rows⟩ y m s).2 =
      rows.filter (matchesAllFilters y m s) := by
  simp only [createSalesDataset]
  exact applySalesFilters_eq_filter rows y m s

/-- C10: `create_sales_dataset` called without a `status_filter` argument
uses the parameter default `'delivered'`: the result keeps only rows whose
`order_status` is `'delivered'` (combined with the year and month filters),
and every returned row has that status; only the explicit `status_filter =
None` call imposes no status constraint. -/
theorem createSalesDatasetDefault_delivered (raw : RawTables) (rows : List Row)
    (y m : Option Int) :
    ((createSalesDatasetDefault ⟨raw, some rows⟩ y m).2 =
        rows.filter (matchesAllFilters y m (some "delivered"))
      ∧ ∀ r ∈ (createSalesDatasetDefault ⟨raw, some rows⟩ y m).2,
          r.order_status = some "delivered")
    ∧ (createSalesDataset ⟨raw, some rows⟩ y m none).2 =
        rows.filter (matchesAllFilters y m none) := by
  have h1 : (createSalesDatasetDefault ⟨raw, some rows⟩ y m).2 =
      rows.filter (matchesAllFilters y m (some "delivered")) := by
    simp only [createSalesDatasetDefault, createSalesDataset]
    exact applySalesFilters_eq_filter rows y m (some "delivered")
  refine ⟨⟨h1, ?_⟩, ?_⟩
  · intro r hr
    rw [h1] at hr
    have hm := (List.mem_filter.mp hr).2
    simp only [matchesAllFilters, Bool.and_eq_true, decide_eq_true_eq] at hm
    exact hm.1.1
  · simp only [createSalesDataset]
    exact applySalesFilters_eq_filter rows y m none

/-- C8: the processed table is immutable once built: on a loader whose
`processed` table is present, `create_sales_dataset` returns the loader
state unchanged (it only filters a copy of the table). -/
theorem createSalesDataset_preserves_loader (l : Loader) (p : List Row)
    (hp : l.processed = some p) (y m : Option Int) (s : Option String) :
    (createSalesDataset l y m s).1 = l := by
  simp only [createSalesDataset, hp]

/-- Witness for C8 at a concrete loader. -/
theorem createSalesDataset_preserves_loader_witness :
    (createSalesDataset ⟨sampleRawEmpty, some [sampleRow]⟩ (some 2023) none
      (some "delivered")).1 = ⟨sampleRawEmpty, some [sampleRow]⟩ :=
  createSalesDataset_preserves_loader ⟨sampleRawEmpty, some [sampleRow]⟩
    [sampleRow] rfl (some 2023) none (some "delivered")

/-- C9: when the comparison dataset's total price sum is zero (for example
an empty comparison dataset), `calculate_revenue_metrics` raises instead of
returning a result dict: `pct_change` yields `None` for the zero
denominator and `round(None, 2)` is a `TypeError`. -/
theorem calculateRevenueMetrics_error_on_zero_comparison (cur comp : List Row)
    (cy py : Int) (h : sumBy Row.price comp = 0) :
    calculateRevenueMetrics cur comp cy py =
      .error "TypeError: NoneType has no round method" := by
  simp [calculateRevenueMetrics, h, pctChange, roundOpt]

/-- Witness for C9: an empty comparison dataset. -/
theorem calculateRevenueMetrics_error_witness :
    calculateRevenueMetrics [sampleRow] [] 2023 2022 =
      .error "TypeError: NoneType has no round method" :=
  calculateRevenueMetrics_error_on_zero_comparison [sampleRow] [] 2023 2022 rfl

/-- C7: the review merge attaches at most one review per order and does not
change the number of rows: the deduplicated reviews have pairwise distinct
`order_id` keys, and the fourth join (and hence the processed table) has
exactly as many rows as the table before the review merge. -/
theorem reviewMerge_unique_and_length_preserving (raw : RawTables) :
    ((reviewsDeduped raw).map Review.order_id).Nodup
    ∧ (stage4 raw).length = (stage3 raw).length
    ∧ (processData raw).length = (stage3 raw).length := by
  have hnd : ((reviewsDeduped raw).map Review.order_id).Nodup :=
    nodup_keys_dropDuplicatesFirst Review.order_id raw.reviews
  have hlen : (stage4 raw).length = (stage3 raw).length := by
    rw [stage4]
    apply length_leftJoin_of_unique
    intro p
    exact length_filter_key_le_one Review.order_id p.1.1.1.order_id _ hnd
  exact ⟨hnd, hlen, by rw [processData, List.length_map]; exact hlen⟩

/-- Witness for C10 at a concrete loader. -/
theorem createSalesDatasetDefault_delivered_witness :
    (createSalesDatasetDefault ⟨sampleRawEmpty, some [sampleRow]⟩ none none).2 =
      [sampleRow].filter (matchesAllFilters none none (some "delivered")) :=
  (createSalesDatasetDefault_delivered sampleRawEmpty [sampleRow] none none).1.1

lemma sum_perOrderPriceSums (sales : List Row) :
    (perOrderPriceSums sales).sum = sumBy Row.price sales := by
  apply sum_groups Row.order_id Row.price
  · exact nodup_dedupKeys _
  · intro r hr
    exact (mem_dedupKeys _ _).mpr (List.mem_map_of_mem _ hr)

lemma length_perOrderPriceSums (sales : List Row) :
    (perOrderPriceSums sales).length = nuniqueOrders Row.order_id sales := by
  simp [perOrderPriceSums, nuniqueOrders]

/-- The mean of the per-order price sums is the total revenue divided by
the number of distinct orders. -/
lemma aovOfSales_eq (sales : List Row) :
    aovOfSales sales =
      sumBy Row.price sales / (nuniqueOrders Row.order_id sales : ℚ) := by
  rw [aovOfSales, listMean, sum_perOrderPriceSums, length_perOrderPriceSums]

/-- C3: AOV equals total revenue divided by distinct order count: the AOV
expression of `calculate_revenue_metrics` (the mean of per-order price
sums) equals the price sum divided by the number of distinct `order_id`
values, hence so does its rounding; and every row of
`calculate_geographic_metrics` has `revenue` the price sum of its state
group, `order_count` the distinct orders of that group, and `aov` the
rounded quotient of the two. -/
theorem aov_equals_revenue_over_distinct_orders (sales : List Row)
    (hne : sales ≠ []) :
    (aovOfSales sales =
        sumBy Row.price sales / (nuniqueOrders Row.order_id sales : ℚ)
      ∧ round2 (aovOfSales sales) =
          round2 (sumBy Row.price sales / (nuniqueOrders Row.order_id sales : ℚ)))
    ∧ ∀ g ∈ calculateGeographicMetrics sales,
        g.revenue = sumBy Row.price (stateRows sales g.customer_state)
        ∧ g.order_count = nuniqueOrders Row.order_id (stateRows sales g.customer_state)
        ∧ g.aov = round2 (sumBy Row.price (stateRows sales g.customer_state) /
            (nuniqueOrders Row.order_id (stateRows sales g.customer_state) : ℚ)) := by
  refine ⟨⟨aovOfSales_eq sales, by rw [aovOfSales_eq]⟩, ?_⟩
  intro g hg
  have hperm := List.perm_insertionSort
    (fun g1 g2 => g2.revenue ≤ g1.revenue)
    ((statesPresent sales).map (geoRowFor sales))
  have hmem : g ∈ (statesPresent sales).map (geoRowFor sales) :=
    hperm.mem_iff.mp hg
  obtain ⟨s, hs, hgs⟩ := List.mem_map.mp hmem
  rw [← hgs]
  exact ⟨rfl, rfl, rfl⟩

/-- Witness for C3 at a concrete one-row dataset. -/
theorem aov_equals_revenue_over_distinct_orders_witness :
    aovOfSales [sampleRow] =
      sumBy Row.price [sampleRow] / (nuniqueOrders Row.order_id [sampleRow] : ℚ) :=
  (aov_equals_revenue_over_distinct_orders [sampleRow] (by simp)).1.1

lemma attachMoM_length (l : List (Int × ℚ)) :
    ∀ prev, (attachMoM prev l).length = l.length := by
  induction l with
  | nil => intro prev; simp [attachMoM]
  | cons x rest ih =>
    intro prev
    cases x with
    | mk m r => simp [attachMoM, ih]

lemma attachMoM_map_pair (l : List (Int × ℚ)) :
    ∀ prev, (attachMoM prev l).map
      (fun row => (row.purchase_month, row.revenue)) = l := by
  induction l with
  | nil => intro prev; simp [attachMoM]
  | cons x rest ih =>
    intro prev
    cases x with
    | mk m r => simp [attachMoM, ih]

lemma attachMoM_mom_zero (l : List (Int × ℚ))
    (h : 0 < (attachMoM none l).length) :
    ((attachMoM none l)[0]).mom_growth_pct = none := by
  cases l with
  | nil => simp [attachMoM] at h
  | cons x rest =>
    cases x with
    | mk m r => simp [attachMoM]

lemma attachMoM_mom_succ (l : List (Int × ℚ)) :
    ∀ (prev : Option ℚ) (i : Nat)
      (h1 : i + 1 < (attachMoM prev l).length),
      ((attachMoM prev l)[i + 1]).mom_growth_pct =
        some ((((attachMoM prev l)[i + 1]).revenue -
            ((attachMoM prev l)[i]).revenue) /
          ((attachMoM prev l)[i]).revenue * 100) := by
  induction l with
  | nil => intro prev i h1; simp [attachMoM] at h1
  | cons x rest ih =>
    intro prev i h1
    cases x with
    | mk m r =>
      cases i with
      | zero =>
        cases rest with
        | nil => simp [attachMoM] at h1
        | cons y t =>
          cases y with
          | mk my ry => simp [attachMoM]
      | succ j =>
        have h1r : j + 1 < (attachMoM (some r) rest).length := by
          have h2 := h1
          simp only [attachMoM, List.length_cons] at h2
          omega
        have hrec := ih (some r) j h1r
        simpa [attachMoM] using hrec

/-- C4: `calculate_monthly_revenue` returns one row per distinct
`purchase_month` present in the input, sorted ascending and without
duplicates; each row's `revenue` is the price sum of its month; the first
row's `mom_growth_pct` is missing (NaN) and every later row's is
`(revenue - previous revenue) / previous revenue * 100`. -/
theorem calculateMonthlyRevenue_spec (sales : List Row) :
    ((calculateMonthlyRevenue sales).map MonthlyRevenueRow.purchase_month).Pairwise (· ≤ ·)
    ∧ ((calculateMonthlyRevenue sales).map MonthlyRevenueRow.purchase_month).Nodup
    ∧ (∀ mth : Int,
        mth ∈ (calculateMonthlyRevenue sales).map MonthlyRevenueRow.purchase_month ↔
          ∃ r ∈ sales, r.purchase_month = some mth)
    ∧ (∀ row ∈ calculateMonthlyRevenue sales,
        row.revenue = monthRevenue sales row.purchase_month)
    ∧ (∀ h0 : 0 < (calculateMonthlyRevenue sales).length,
        ((calculateMonthlyRevenue sales)[0]).mom_growth_pct = none)
    ∧ ∀ (i : Nat) (h1 : i + 1 < (calculateMonthlyRevenue sales).length),
        ((calculateMonthlyRevenue sales)[i + 1]).mom_growth_pct =
          some ((((calculateMonthlyRevenue sales)[i + 1]).revenue -
              ((calculateMonthlyRevenue sales)[i]).revenue) /
            ((calculateMonthlyRevenue sales)[i]).revenue * 100) := by
  have hmap : (calculateMonthlyRevenue sales).map
      (fun row => (row.purchase_month, row.revenue)) =
      (monthsPresent sales).map fun m => (m, monthRevenue sales m) :=
    attachMoM_map_pair _ none
  have hmonths : (calculateMonthlyRevenue sales).map MonthlyRevenueRow.purchase_month
      = monthsPresent sales := by
    have h := congrArg (List.map Prod.fst) hmap
    simp only [List.map_map] at h
    have e1 : (Prod.fst ∘ fun row : MonthlyRevenueRow =>
        (row.purchase_month, row.revenue)) = MonthlyRevenueRow.purchase_month := rfl
    have e2 : (Prod.fst ∘ fun m : Int => (m, monthRevenue sales m)) =
        fun m : Int => m := rfl
    rw [e1, e2] at h
    simpa using h
  have hsorted : (monthsPresent sales).Pairwise (fun a b : Int => a ≤ b) := by
    rw [monthsPresent]
    exact List.sorted_insertionSort (· ≤ ·) _
  have hnodup : (monthsPresent sales).Nodup := by
    rw [monthsPresent]
    exact ((List.perm_insertionSort _ _).nodup_iff).mpr (nodup_dedupKeys _)
  have hmm : ∀ mth : Int, mth ∈ monthsPresent sales ↔
      ∃ r ∈ sales, r.purchase_month = some mth := by
    intro mth
    rw [monthsPresent, (List.perm_insertionSort _ _).mem_iff, mem_dedupKeys]
    exact List.mem_filterMap
  refine ⟨?_, ?_, ?_, ?_, ?_, ?_⟩
  · rw [hmonths]
    exact hsorted
  · rw [hmonths]; exact hnodup
  · intro mth; rw [hmonths]; exact hmm mth
  · intro row hrow
    have hp : (row.purchase_month, row.revenue) ∈
        (monthsPresent sales).map fun m => (m, monthRevenue sales m) := by
      rw [← hmap]
      exact List.mem_map_of_mem _ hrow
    obtain ⟨m, hm, heq⟩ := List.mem_map.mp hp
    have h1 : m = row.purchase_month := congrArg Prod.fst heq
    have h2 : monthRevenue sales m = row.revenue := congrArg Prod.snd heq
    rw [← h1]
    exact h2.symm
  · intro h0
    exact attachMoM_mom_zero _ h0
  · intro i h1
    exact attachMoM_mom_succ
      ((monthsPresent sales).map fun m => (m, monthRevenue sales m)) none i h1

/-- A second sample row in a later month (used in concrete witnesses). -/
def sampleRowJune : Row :=
  { sampleRow with
    order_id := "o2", price := 100,
    order_purchase_timestamp := some ⟨2023, 6, 1702600000⟩,
    purchase_month := some 6 }

/-- Witness for C4 at a concrete two-month dataset. -/
theorem calculateMonthlyRevenue_spec_witness :
    ((calculateMonthlyRevenue [sampleRow, sampleRowJune])[1]).mom_growth_pct =
      some ((((calculateMonthlyRevenue [sampleRow, sampleRowJune])[1]).revenue -
          ((calculateMonthlyRevenue [sampleRow, sampleRowJune])[0]).revenue) /
        ((calculateMonthlyRevenue [sampleRow, sampleRowJune])[0]).revenue * 100) :=
  (calculateMonthlyRevenue_spec [sampleRow, sampleRowJune]).2.2.2.2.2 0 (by decide)

/-- C1: `process_data` is four successive left joins (order items → orders
→ products → customers → deduplicated reviews, in that order by
construction of `stage1`–`stage4`), and every order-item row of the input
appears in the result even when the matching order is absent, in which
case the attached order and customer attributes are missing. -/
theorem processData_left_total (raw : RawTables) :
    ∀ i ∈ raw.order_items, ∃ row ∈ processData raw,
      row.order_id = i.order_id ∧ row.order_item_id = i.order_item_id ∧
      row.product_id = i.product_id ∧ row.price = i.price ∧
      row.freight_value = i.freight_value ∧
      ((∀ o ∈ raw.orders, o.order_id ≠ i.order_id) →
        row.order_status = none ∧ row.customer_id = none ∧
        row.customer_state = none ∧ row.customer_city = none) := by
  intro i hi
  by_cases hord : ∀ o ∈ raw.orders, o.order_id ≠ i.order_id
  · have h1 : (i, (none : Option Order)) ∈ stage1 raw := by
      rw [stage1]
      apply mem_leftJoin_none hi
      rw [List.filter_eq_nil_iff]
      intro o ho hmatch
      simp only [decide_eq_true_eq] at hmatch
      exact hord o ho hmatch.symm
    obtain ⟨pb, h2⟩ : ∃ pb, ((i, (none : Option Order)), pb) ∈ stage2 raw := by
      rw [stage2]
      exact exists_mem_leftJoin h1
    have h3 : (((i, (none : Option Order)), pb), (none : Option Customer)) ∈
        stage3 raw := by
      rw [stage3]
      apply mem_leftJoin_none h2
      rw [List.filter_eq_nil_iff]
      intro c hc
      simp
    obtain ⟨rb, h4⟩ : ∃ rb,
        ((((i, (none : Option Order)), pb), (none : Option Customer)), rb) ∈
          stage4 raw := by
      rw [stage4]
      exact exists_mem_leftJoin h3
    exact ⟨mkRow _, List.mem_map_of_mem mkRow h4,
      rfl, rfl, rfl, rfl, rfl, fun _ => ⟨rfl, rfl, rfl, rfl⟩⟩
  · obtain ⟨ob, h1⟩ : ∃ ob, (i, ob) ∈ stage1 raw := by
      rw [stage1]
      exact exists_mem_leftJoin hi
    obtain ⟨pb, h2⟩ : ∃ pb, ((i, ob), pb) ∈ stage2 raw := by
      rw [stage2]
      exact exists_mem_leftJoin h1
    obtain ⟨cb, h3⟩ : ∃ cb, (((i, ob), pb), cb) ∈ stage3 raw := by
      rw [stage3]
      exact exists_mem_leftJoin h2
    obtain ⟨rb, h4⟩ : ∃ rb, ((((i, ob), pb), cb), rb) ∈ stage4 raw := by
      rw [stage4]
      exact exists_mem_leftJoin h3
    exact ⟨mkRow _, List.mem_map_of_mem mkRow h4,
      rfl, rfl, rfl, rfl, rfl, fun hno => absurd hno hord⟩

/-- One sample order item (used in concrete witnesses). -/
def sampleItem : OrderItem :=
  { order_id := "o1", order_item_id := 1, product_id := "p1",
    price := 50, freight_value := 5 }

/-- Raw tables with one order item and no other rows. -/
def sampleRawOneItem : RawTables :=
  { order_items := [sampleItem], orders := [], products := [],
    customers := [], reviews := [] }

/-- Witness for C1: the single order item survives the pipeline even though
every other table is empty. -/
theorem processData_left_total_witness :
    ∃ row ∈ processData sampleRawOneItem,
      row.order_id = sampleItem.order_id ∧
      row.order_item_id = sampleItem.order_item_id ∧
      row.product_id = sampleItem.product_id ∧
      row.price = sampleItem.price ∧
      row.freight_value = sampleItem.freight_value ∧
      ((∀ o ∈ sampleRawOneItem.orders, o.order_id ≠ sampleItem.order_id) →
        row.order_status = none ∧ row.customer_id = none ∧
        row.customer_state = none ∧ row.customer_city = none) :=
  processData_left_total sampleRawOneItem sampleItem (by simp [sampleRawOneItem])

/-- C6 (amended): for every processed row, `purchase_year` and
`purchase_month` are the year and month of `order_purchase_timestamp`, and
`delivery_days` is the timestamp difference floor-divided into whole days
(pandas `.dt.days`, rounding toward minus infinity — not truncation);
each derived value is missing when its source timestamp is missing. -/
theorem derived_time_columns (raw : RawTables) :
    ∀ row ∈ processData raw,
      (∀ ts, row.order_purchase_timestamp = some ts →
        row.purchase_year = some ts.year ∧ row.purchase_month = some ts.month)
      ∧ (row.order_purchase_timestamp = none →
          row.purchase_year = none ∧ row.purchase_month = none ∧
          row.delivery_days = none)
      ∧ (∀ ts td, row.order_purchase_timestamp = some ts →
          row.order_delivered_customer_date = some td →
          row.delivery_days = some (Int.fdiv (td.sec - ts.sec) 86400))
      ∧ (row.order_delivered_customer_date = none →
          row.delivery_days = none) := by
  intro row hrow
  rw [processData] at hrow
  obtain ⟨s, hs, hmk⟩ := List.mem_map.mp hrow
  rw [← hmk]
  rcases s with ⟨⟨⟨⟨i, o⟩, pr⟩, c⟩, rv⟩
  cases o with
  | none => refine ⟨?_, ?_, ?_, ?_⟩ <;> simp [mkRow]
  | some ord =>
    cases hp : ord.order_purchase_timestamp with
    | none =>
      cases hd : ord.order_delivered_customer_date with
      | none => refine ⟨?_, ?_, ?_, ?_⟩ <;> simp [mkRow, hp, hd]
      | some td => refine ⟨?_, ?_, ?_, ?_⟩ <;> simp [mkRow, hp, hd]
    | some tp =>
      cases hd : ord.order_delivered_customer_date with
      | none => refine ⟨?_, ?_, ?_, ?_⟩ <;> simp [mkRow, hp, hd]
      | some td =>
        refine ⟨?_, ?_, ?_, ?_⟩ <;> simp [mkRow, hp, hd]

/-- Witness for C6 (amended) at a concrete pipeline run. -/
theorem derived_time_columns_witness :
    ∃ row ∈ processData sampleRawOneItem,
      (∀ ts, row.order_purchase_timestamp = some ts →
        row.purchase_year = some ts.year ∧ row.purchase_month = some ts.month)
      ∧ (row.order_purchase_timestamp = none →
          row.purchase_year = none ∧ row.purchase_month = none ∧
          row.delivery_days = none) := by
  have h := derived_time_columns sampleRawOneItem
  refine ⟨mkRow ((((sampleItem, (none : Option Order)), (none : Option Product)),
      (none : Option Customer)), (none : Option Review)),
    by decide, ?_, ?_⟩
  · exact (h _ (by decide)).1
  · exact (h _ (by decide)).2.1

/-- The order of the C6 counterexample: delivered one hour before the
purchase timestamp. -/
def ceOrderC6 : Order :=
  { order_id := "o1", customer_id := "c1", order_status := "delivered",
    order_purchase_timestamp := some ⟨2023, 5, 3600⟩,
    order_delivered_customer_date := some ⟨2023, 5, 0⟩ }

/-- Raw tables for the C6 counterexample. -/
def ceRawC6 : RawTables :=
  { order_items := [sampleItem], orders := [ceOrderC6],
    products := [], customers := [], reviews := [] }

/-- C6 counterexample: `delivery_days` floors the difference toward minus
infinity rather than truncating it toward zero: with delivery one hour
before purchase the pipeline yields −1 while the truncated difference in
days is 0. -/
theorem delivery_days_floors_not_truncates :
    (processData ceRawC6).map Row.delivery_days = [some (-1)]
    ∧ Int.tdiv ((0 : Int) - 3600) 86400 = 0
    ∧ ((-1 : Int) ≠ 0) := by
  refine ⟨by decide, by decide, by decide⟩

/-- C5 (amended): every delivery duration falls in exactly one of the four
buckets, with missing → `'unknown'`, 1–3 → `'1-3 days'`, 4–7 → `'4-7 days'`
and 8+ → `'8+ days'`; and for every order of the order-level frame the
summary has a row for its bucket, labelled with the bucket for the three
day buckets but with a missing (NaN) label for `'unknown'`, because the
categorical cast lists only the three day buckets. -/
theorem delivery_buckets_spec (sales : List Row) :
    bucketDelivery none = "unknown"
    ∧ (∀ d : Int, 1 ≤ d → d ≤ 3 → bucketDelivery (some d) = "1-3 days")
    ∧ (∀ d : Int, 4 ≤ d → d ≤ 7 → bucketDelivery (some d) = "4-7 days")
    ∧ (∀ d : Int, 8 ≤ d → bucketDelivery (some d) = "8+ days")
    ∧ (∀ d : Option Int, bucketDelivery d = "unknown" ∨
        bucketDelivery d = "1-3 days" ∨ bucketDelivery d = "4-7 days" ∨
        bucketDelivery d = "8+ days")
    ∧ ∀ o ∈ deliveryOrderLevel sales,
        ∃ b ∈ (calculateDeliveryMetrics sales).delivery_bucket_summary,
          b.delivery_time = bucketLabel (bucketDelivery o.delivery_days)
          ∧ (bucketDelivery o.delivery_days ≠ "unknown" →
              b.delivery_time = some (bucketDelivery o.delivery_days)) := by
  refine ⟨rfl, ?_, ?_, ?_, ?_, ?_⟩
  · intro d h1 h3
    simp [bucketDelivery, h3]
  · intro d h4 h7
    have h3 : ¬(d ≤ 3) := by omega
    simp [bucketDelivery, h3, h7]
  · intro d h8
    have h3 : ¬(d ≤ 3) := by omega
    have h7 : ¬(d ≤ 7) := by omega
    simp [bucketDelivery, h3, h7]
  · intro d
    cases d with
    | none => exact Or.inl rfl
    | some d =>
      by_cases h3 : d ≤ 3
      · exact Or.inr (Or.inl (by simp [bucketDelivery, h3]))
      · by_cases h7 : d ≤ 7
        · exact Or.inr (Or.inr (Or.inl (by simp [bucketDelivery, h3, h7])))
        · exact Or.inr (Or.inr (Or.inr (by simp [bucketDelivery, h3, h7])))
  · intro o ho
    have hkmem : bucketDelivery o.delivery_days ∈ deliveryBuckets sales := by
      rw [deliveryBuckets]
      rw [(List.perm_insertionSort _ _).mem_iff, mem_dedupKeys]
      exact List.mem_map_of_mem _ ho
    have hfour : bucketDelivery o.delivery_days = "unknown" ∨
        bucketDelivery o.delivery_days = "1-3 days" ∨
        bucketDelivery o.delivery_days = "4-7 days" ∨
        bucketDelivery o.delivery_days = "8+ days" := by
      cases hd : o.delivery_days with
      | none => exact Or.inl rfl
      | some d =>
        by_cases h3 : d ≤ 3
        · exact Or.inr (Or.inl (by simp [bucketDelivery, h3]))
        · by_cases h7 : d ≤ 7
          · exact Or.inr (Or.inr (Or.inl (by simp [bucketDelivery, h3, h7])))
          · exact Or.inr (Or.inr (Or.inr (by simp [bucketDelivery, h3, h7])))
    refine ⟨bucketRowFor sales (bucketDelivery o.delivery_days), ?_, rfl, ?_⟩
    · show bucketRowFor sales (bucketDelivery o.delivery_days) ∈ bucketSummary sales
      rw [bucketSummary, (List.perm_insertionSort _ _).mem_iff]
      exact List.mem_map_of_mem _ hkmem
    · intro hne
      rcases hfour with h | h | h | h
      · exact absurd h hne
      all_goals
        show bucketLabel (bucketDelivery o.delivery_days) = _
        rw [h]
        simp [bucketLabel]

/-- Sample row with a missing delivery duration (C5 counterexample data). -/
def sampleRowNoDelivery : Row :=
  { sampleRow with
    order_id := "o9", delivery_days := none,
    review_score := none }

/-- C5 counterexample: with a single order in the `'unknown'` bucket, the
bucket summary has one row but its `delivery_time` label is NaN, so no row
of the summary is labelled `'unknown'` even though that bucket occurs. -/
theorem unknown_bucket_label_lost :
    (deliveryOrderLevel [sampleRowNoDelivery]).map
        (fun o => bucketDelivery o.delivery_days) = ["unknown"]
    ∧ (calculateDeliveryMetrics [sampleRowNoDelivery]).delivery_bucket_summary.map
        BucketRow.delivery_time = [none]
    ∧ ¬ some "unknown" ∈
        (calculateDeliveryMetrics [sampleRowNoDelivery]).delivery_bucket_summary.map
          BucketRow.delivery_time := by
  refine ⟨by decide, by decide, by decide⟩

/-- Witness for C5 (amended): a bucketing case with its hypotheses
discharged, and the summary row found for a concrete `'unknown'` order. -/
theorem delivery_buckets_spec_witness :
    bucketDelivery (some 2) = "1-3 days"
    ∧ ∃ b ∈ (calculateDeliveryMetrics [sampleRowNoDelivery]).delivery_bucket_summary,
        b.delivery_time = bucketLabel (bucketDelivery (none : Option Int))
        ∧ (bucketDelivery (none : Option Int) ≠ "unknown" →
            b.delivery_time = some (bucketDelivery (none : Option Int))) :=
  ⟨(delivery_buckets_spec []).2.1 2 (by norm_num) (by norm_num),
   (delivery_buckets_spec [sampleRowNoDelivery]).2.2.2.2.2
     ⟨"o9", none, none⟩ (by decide)⟩
